import Mathlib

/-!
Shallow embedding of the frame-pipeline core of ASIOverlayWatchdog:
storage eviction (`services/cleanup.py`), the ASCOM safety-signal writer
(`services/ascom_safety.py`), the ML inference service
(`services/ml_service.py`) and the RTSP streaming bridge
(`services/rtsp_output.py`), together with theorems about their behaviour.

Python floats (mtimes, confidences, pixel values) are modelled as `ℚ`;
the file system is modelled explicitly (target/temp file contents,
lists of files with mtime and size); subprocess and file-system side
effects are modelled as explicit action traces or state transitions.
-/

set_option maxHeartbeats 1000000
set_option maxRecDepth 8000

namespace ASIOverlay

/-! ## Generic helpers -/

/-- Floor of a rational number, computed on the numerator/denominator pair
(`Int.fdiv` floors toward negative infinity). -/
def ratFloor (q : ℚ) : ℤ := Int.fdiv q.num (q.den : ℤ)

/-- Round-half-to-even on rationals; models Python `round` and the rounding
used by `format(x, '.0%')`. -/
def bankersRound (q : ℚ) : ℤ :=
  let f := ratFloor q
  if q - (f : ℚ) = 1/2 then (if f % 2 = 0 then f else f + 1)
  else if q - (f : ℚ) < 1/2 then f else f + 1

/-- Ascending sort of rationals (models `numpy`'s internal sort in `np.median`). -/
def sortQ (l : List ℚ) : List ℚ := List.insertionSort (fun a b => a ≤ b) l

/-- Median of a list of rationals: middle element for odd length, mean of the
two middle elements for even length; models `np.median`.  The value on the
empty list is a modelling convention (`np.median([])` is NaN). -/
def median (l : List ℚ) : ℚ :=
  let s := sortQ l
  let n := s.length
  if n = 0 then 0
  else if n % 2 = 1 then s.getD (n / 2) 0
  else (s.getD (n / 2 - 1) 0 + s.getD (n / 2) 0) / 2

/-! ## Storage eviction engine (`services/cleanup.py`)

A watch directory is modelled as the list of files below it (each with its
path, mtime and byte size) plus the list of its subdirectories.  Deleting a
file succeeds in the model (the code treats a failed delete as benign and
continues, which only shrinks the deleted set). -/

structure FileEntry where
  path : String
  mtime : ℚ
  size : ℕ
deriving DecidableEq

structure WatchDir where
  files : List FileEntry
  dirs : List String
deriving DecidableEq

/-- `get_directory_size`: total size in bytes of all files. -/
def totalSize (files : List FileEntry) : ℕ := (files.map FileEntry.size).sum

/-- `files.sort(key=lambda x: x[1])`: stable ascending sort by mtime. -/
def sortFilesByMtime (files : List FileEntry) : List FileEntry :=
  List.insertionSort (fun a b => a.mtime ≤ b.mtime) files

instance : IsTotal FileEntry (fun a b => a.mtime ≤ b.mtime) :=
  ⟨fun a b => le_total a.mtime b.mtime⟩

instance : IsTrans FileEntry (fun a b => a.mtime ≤ b.mtime) :=
  ⟨fun _ _ _ h1 h2 => le_trans h1 h2⟩

/-- The deletion loop of `delete_oldest_files`: walk the mtime-sorted list,
stop as soon as the running total is under the cap, otherwise delete the
head and decrement the running total by its size.  Returns
(deleted files in deletion order, surviving files). -/
def evictLoop (cap : ℕ) : ℕ → List FileEntry → List FileEntry × List FileEntry
  | _, [] => ([], [])
  | cur, f :: rest =>
    if cur ≤ cap then ([], f :: rest)
    else
      let out := evictLoop cap (cur - f.size) rest
      (f :: out.1, out.2)

/-- `delete_oldest_files(directory, max_size_bytes)`: no-op when already under
the cap, otherwise delete oldest-first until under the cap or exhausted.
Only `os.remove` is ever called, so the directory list is untouched.
Returns the new directory state and the deleted files in deletion order. -/
def delete_oldest_files (d : WatchDir) (cap : ℕ) : WatchDir × List FileEntry :=
  let cur := totalSize d.files
  if cur ≤ cap then (d, [])
  else
    let out := evictLoop cap cur (sortFilesByMtime d.files)
    ({ files := out.2, dirs := d.dirs }, out.1)

/-- An immediate child (session) folder of the watch directory:
its path, its mtime, and the files recursively inside it. -/
structure SessionFolder where
  path : String
  mtime : ℚ
  files : List FileEntry
deriving DecidableEq

/-- A watch directory as seen by `delete_oldest_sessions`: files directly in
the root plus the immediate child folders. -/
structure SessionDir where
  rootFiles : List FileEntry
  folders : List SessionFolder
deriving DecidableEq

def folderSize (f : SessionFolder) : ℕ := totalSize f.files

/-- Total size of the watch directory. -/
def sessionDirSize (d : SessionDir) : ℕ :=
  totalSize d.rootFiles + (d.folders.map folderSize).sum

/-- `folders.sort(key=lambda x: x[1])`: stable ascending sort by mtime. -/
def sortFoldersByMtime (l : List SessionFolder) : List SessionFolder :=
  List.insertionSort (fun a b => a.mtime ≤ b.mtime) l

instance : IsTotal SessionFolder (fun a b => a.mtime ≤ b.mtime) :=
  ⟨fun a b => le_total a.mtime b.mtime⟩

instance : IsTrans SessionFolder (fun a b => a.mtime ≤ b.mtime) :=
  ⟨fun _ _ _ h1 h2 => le_trans h1 h2⟩

/-- Inner loop of `delete_oldest_sessions`: delete files of one session folder
while the running total exceeds the cap.  Returns the new running total and
the files deleted from this folder. -/
def deleteFilesLoop (cap : ℕ) : ℕ → List FileEntry → ℕ × List FileEntry
  | cur, [] => (cur, [])
  | cur, f :: rest =>
    if cur ≤ cap then (cur, [])
    else
      let out := deleteFilesLoop cap (cur - f.size) rest
      (out.1, f :: out.2)

/-- Outer loop of `delete_oldest_sessions` over the folders to consider
(oldest first); stops once the running total is under the cap. Returns, per
visited folder, its path and the files deleted inside it. -/
def sessionsLoop (cap : ℕ) : ℕ → List SessionFolder → List (String × List FileEntry)
  | _, [] => []
  | cur, fo :: rest =>
    if cur ≤ cap then []
    else
      let out := deleteFilesLoop cap cur fo.files
      (fo.path, out.2) :: sessionsLoop cap out.1 rest

/-- `delete_oldest_sessions(directory, max_size_bytes)`: sort the immediate
child folders by mtime ascending, keep the newest folder untouched
(`folders[:-1]`), return immediately when there are zero or one folders, and
otherwise delete files from the remaining folders oldest-first until the
directory is under the cap. -/
def delete_oldest_sessions (d : SessionDir) (cap : ℕ) : List (String × List FileEntry) :=
  let cur := sessionDirSize d
  let folders := sortFoldersByMtime d.folders
  if folders.length = 0 then []
  else if folders.length = 1 then []
  else sessionsLoop cap cur folders.dropLast

/-! ## ML inference service (`services/ml_service.py`)

Pixel buffers are grayscale or multi-channel rational matrices.  The two
classifiers are external artifacts (`ml/roof_classifier.py`,
`ml/sky_classifier.py` are not part of the core); `analyze_image` treats a
loaded classifier as a black-box predictor that either returns a result or
throws, which is modelled as an `Except`-valued function. -/

inductive PixBuf where
  | gray (rows : List (List ℚ))
  | multi (rows : List (List (List ℚ)))

/-- Mean of one pixel's channels (`np.mean(..., axis=2)` on one pixel). -/
def channelMean (px : List ℚ) : ℚ :=
  if px.length = 0 then 0 else px.sum / (px.length : ℚ)

/-- `np.mean(image_array, axis=2)` for 3-dimensional input, identity (as
float) for 2-dimensional input. -/
def toGray : PixBuf → List (List ℚ)
  | PixBuf.gray rows => rows
  | PixBuf.multi rows => rows.map (fun row => row.map channelMean)

/-- All entries of a matrix, row-major. -/
def matEntries (g : List (List ℚ)) : List ℚ := g.flatten

/-- `gray.max()` (with 0 for the empty matrix; pixel data is nonnegative). -/
def matMax (g : List (List ℚ)) : ℚ := (matEntries g).foldr max 0

/-- `if gray.max() > 1.0: gray = gray / 255.0`. -/
def normalizeGray (g : List (List ℚ)) : List (List ℚ) :=
  if 1 < matMax g then g.map (fun row => row.map (fun v => v / 255)) else g

/-- Python slice `l[a:b]`. -/
def takeSlice (a b : ℕ) (l : List α) : List α := (l.drop a).take (b - a)

/-- 2-D slice `g[r0:r1, c0:c1]`. -/
def subMat (r0 r1 c0 c1 : ℕ) (g : List (List ℚ)) : List (List ℚ) :=
  (takeSlice r0 r1 g).map (takeSlice c0 c1)

structure CornerStats where
  corner_med : ℚ
  center_med : ℚ
  corner_to_center_ratio : ℚ
deriving DecidableEq

/-- `MLService._compute_corner_analysis`: grayscale, normalize, slice the four
corner regions of side `min(h, w) // 8` and the center region
`g[h//4 : h - h//4, w//4 : w - w//4]`, take medians, and form
`corner_med / max(center_med, 0.001)`. -/
def compute_corner_analysis (buf : PixBuf) : CornerStats :=
  let gray := normalizeGray (toGray buf)
  let h := gray.length
  let w := gray.headI.length
  let s := min h w / 8
  let tl := matEntries (subMat 0 s 0 s gray)
  let tr := matEntries (subMat 0 s (w - s) w gray)
  let bl := matEntries (subMat (h - s) h 0 s gray)
  let br := matEntries (subMat (h - s) h (w - s) w gray)
  let ch := h / 4
  let cw := w / 4
  let center := matEntries (subMat ch (h - ch) cw (w - cw) gray)
  let corner_med := median [median tl, median tr, median bl, median br]
  let center_med := median center
  { corner_med := corner_med
    center_med := center_med
    corner_to_center_ratio := corner_med / max center_med (1/1000) }

/-- Grayscale conversion as worded by the spec: channel mean when
multi-channel. -/
def grayscaleSpec (buf : PixBuf) : List (List ℚ) :=
  match buf with
  | PixBuf.gray rows => rows
  | PixBuf.multi rows => rows.map (fun row => row.map channelMean)

/-- Normalization as worded by the spec sentence, with the division by 255
made explicit: divide every value by 255 when the source range exceeds 1. -/
def normalizeSpec (g : List (List ℚ)) : List (List ℚ) :=
  if 1 < matMax g then g.map (fun row => row.map (fun v => v / 255)) else g

/-- The four corner regions of side `min(h, w) / 8`, as worded by the spec. -/
def cornerRegionsSpec (g : List (List ℚ)) : List (List ℚ) :=
  let h := g.length
  let w := g.headI.length
  let s := min h w / 8
  [ matEntries (subMat 0 s 0 s g)
  , matEntries (subMat 0 s (w - s) w g)
  , matEntries (subMat (h - s) h 0 s g)
  , matEntries (subMat (h - s) h (w - s) w g) ]

/-- The center region spanning the middle 50% of each axis (margins of a
quarter of each dimension, floor division). -/
def centerRegionSpec (g : List (List ℚ)) : List ℚ :=
  let h := g.length
  let w := g.headI.length
  matEntries (subMat (h / 4) (h - h / 4) (w / 4) (w - w / 4) g)

/-- The model-free feature extraction assembled from the spec's wording:
`corner_med` is the median of the four corner medians, `center_med` the
median of the center region, and the ratio is
`corner_med / max(center_med, 1e-3)`. -/
def cornerAnalysisSpec (buf : PixBuf) : CornerStats :=
  let g := normalizeSpec (grayscaleSpec buf)
  let cornerMeds := (cornerRegionsSpec g).map median
  let corner_med := median cornerMeds
  let center_med := median (centerRegionSpec g)
  { corner_med := corner_med
    center_med := center_med
    corner_to_center_ratio := corner_med / max center_med (1/1000) }

structure RoofResult where
  roof_open : Bool
  confidence : ℚ

structure SkyResult where
  sky_condition : String
  sky_confidence : ℚ
  stars_visible : Bool
  star_density : ℚ
  moon_visible : Bool

/-- The fully-shaped result of `MLService.analyze_image`. -/
structure MLResults where
  roof_status : String
  roof_confidence : Option ℚ
  sky_condition : String
  sky_confidence : Option ℚ
  stars_visible : Option Bool
  star_density : Option ℚ
  moon_visible : Option Bool
deriving DecidableEq

/-- The initial (all-unavailable) result dict built at the top of
`analyze_image`. -/
def mlResultsInit : MLResults :=
  { roof_status := "N/A"
    roof_confidence := none
    sky_condition := "N/A"
    sky_confidence := none
    stars_visible := none
    star_density := none
    moon_visible := none }

structure TimeContext where
  hour : ℕ
  is_astronomical_night : Bool

/-- `MLService._compute_time_context` with the wall-clock hour as input. -/
def compute_time_context (hour : ℕ) : TimeContext :=
  { hour := hour, is_astronomical_night := decide (hour < 6 ∨ 20 ≤ hour) }

structure RoofMeta where
  corner_to_center_ratio : ℚ
  median_lum : ℚ
  is_astronomical_night : Bool
  hour : ℕ

structure SkyMeta where
  corner_to_center_ratio : ℚ
  median_lum : ℚ
  is_astronomical_night : Bool
  hour : ℕ
  moon_illumination : ℚ
  moon_is_up : Bool

def roofMetaOf (ca : CornerStats) (tc : TimeContext) : RoofMeta :=
  { corner_to_center_ratio := ca.corner_to_center_ratio
    median_lum := ca.center_med
    is_astronomical_night := tc.is_astronomical_night
    hour := tc.hour }

def skyMetaOf (ca : CornerStats) (tc : TimeContext) : SkyMeta :=
  { corner_to_center_ratio := ca.corner_to_center_ratio
    median_lum := ca.center_med
    is_astronomical_night := tc.is_astronomical_night
    hour := tc.hour
    moon_illumination := 0
    moon_is_up := false }

/-- `round(x, 3)` (round-half-even to three decimals). -/
def round3 (q : ℚ) : ℚ := (bankersRound (q * 1000) : ℚ) / 1000

/-- Loaded classifiers of the ML service singleton: `none` when the artifact
is missing or failed to load; a loaded predictor either returns a result or
throws (`Except.error`). -/
structure MLServiceState where
  roofClassifier : Option (PixBuf → RoofMeta → Except Unit RoofResult)
  skyClassifier : Option (PixBuf → SkyMeta → Except Unit SkyResult)

/-- `MLService.analyze_image`: start from the all-unavailable result; when the
roof classifier is enabled and loaded, try it, a throw leaving the roof
fields untouched; then, only when the roof resolved to Open, try the sky
classifier the same way.  The function is total: no exception escapes. -/
def analyze_image (svc : MLServiceState) (roofEnabled skyEnabled : Bool)
    (img : PixBuf) (hour : ℕ) : MLResults :=
  let ca := compute_corner_analysis img
  let tc := compute_time_context hour
  let base := mlResultsInit
  let afterRoof :=
    match roofEnabled, svc.roofClassifier with
    | true, some predictRoof =>
      match predictRoof img (roofMetaOf ca tc) with
      | Except.ok r =>
        { base with
            roof_status := if r.roof_open then "Open" else "Closed"
            roof_confidence := some (round3 r.confidence) }
      | Except.error _ => base
    | _, _ => base
  match skyEnabled && (afterRoof.roof_status == "Open"), svc.skyClassifier with
  | true, some predictSky =>
    match predictSky img (skyMetaOf ca tc) with
    | Except.ok s =>
      { afterRoof with
          sky_condition := s.sky_condition
          sky_confidence := some (round3 s.sky_confidence)
          stars_visible := some s.stars_visible
          star_density := some (round3 s.star_density)
          moon_visible := some s.moon_visible }
    | Except.error _ => afterRoof
  | _, _ => afterRoof

/-! ## ASCOM safety-signal writer (`services/ascom_safety.py`)

The file system visible to the writer is the target file and its temp
sibling (`file_path + '.tmp'`), each `none` when absent.  I/O failures are
injected through an explicit failure point: directory creation failing
(`OSError` caught, `False` returned), the temp-file write throwing, or the
rename throwing (both cleaned up and re-raised, then caught by
`write_status`). -/

structure SafetyConfig where
  file_path : String
  preamble : String
  open_trigger : String
  closed_trigger : String
  include_confidence : Bool
  include_sky_condition : Bool
  min_confidence : ℚ

structure SafetyFS where
  target : Option String
  temp : Option String
deriving DecidableEq

inductive FailPoint where
  | noFail
  | mkdirFail
  | writeFail
  | renameFail
deriving DecidableEq

structure WriterState where
  lastStatus : Option String
deriving DecidableEq

/-- Python `f"{q:.0%}"`. -/
def formatPercent0 (q : ℚ) : String := toString (bankersRound (q * 100)) ++ "%"

/-- The lines built by `write_status` once the skip checks have passed. -/
def buildSafetyLines (cfg : SafetyConfig) (res : MLResults) (now : String) : List String :=
  let trigger := if res.roof_status = "Open" then cfg.open_trigger else cfg.closed_trigger
  let l1 := [cfg.preamble ++ " " ++ trigger]
  let l2 :=
    if cfg.include_confidence then
      match res.roof_confidence with
      | some c => ["Confidence: " ++ formatPercent0 c]
      | none => []
    else []
  let l3 :=
    if cfg.include_sky_condition ∧ res.sky_condition ≠ "N/A" then
      match res.sky_confidence with
      | some s => ["Sky Condition: " ++ res.sky_condition ++ " (" ++ formatPercent0 s ++ ")"]
      | none => ["Sky Condition: " ++ res.sky_condition]
    else []
  l1 ++ l2 ++ l3 ++ ["Updated: " ++ now]

/-- `'\n'.join(lines) + '\n'`. -/
def joinLines : List String → String
  | [] => "\n"
  | [l] => l ++ "\n"
  | l :: l2 :: ls => l ++ "\n" ++ joinLines (l2 :: ls)

/-- The full file content written by `write_status`. -/
def safetyContent (cfg : SafetyConfig) (res : MLResults) (now : String) : String :=
  joinLines (buildSafetyLines cfg res now)

structure AtomicOut where
  raised : Bool
  ok : Bool
  fs : SafetyFS
deriving DecidableEq

/-- `ASCOMSafetyWriter._atomic_write`: write the full content to the temp
sibling, then `os.replace` it over the target — the rename is the only
mutation of the target.  A directory-creation failure returns `False`; an
exception while writing or renaming removes the temp file (best effort) and
re-raises. -/
def atomic_write (content : String) (fail : FailPoint) (fs : SafetyFS) : AtomicOut :=
  match fail with
  | FailPoint.mkdirFail => { raised := false, ok := false, fs := fs }
  | FailPoint.writeFail => { raised := true, ok := false, fs := { fs with temp := none } }
  | FailPoint.renameFail => { raised := true, ok := false, fs := { fs with temp := none } }
  | FailPoint.noFail => { raised := false, ok := true, fs := { target := some content, temp := none } }

/-- `ASCOMSafetyWriter.write_status`: skip (returning `False`, file untouched)
when unconfigured, when `roof_status == 'N/A'`, or when the confidence is
present and below `min_confidence`; otherwise build the content and write it
atomically, catching any exception and returning `False`.  On success the
first line is remembered (`content.split('\n')[0]`). -/
def write_status (cfg : SafetyConfig) (res : MLResults) (now : String)
    (fail : FailPoint) (fs : SafetyFS) (w : WriterState) : Bool × SafetyFS × WriterState :=
  if cfg.file_path = "" then (false, fs, w)
  else if res.roof_status = "N/A" then (false, fs, w)
  else if (match res.roof_confidence with
           | some c => decide (c < cfg.min_confidence)
           | none => false) then (false, fs, w)
  else
    let content := safetyContent cfg res now
    let out := atomic_write content fail fs
    if out.raised then (false, out.fs, w)
    else if out.ok then
      (true, out.fs, { lastStatus := some (buildSafetyLines cfg res now).headI })
    else (false, out.fs, w)

/-! ## RTSP streaming bridge (`services/rtsp_output.py`)

The bridge state mirrors `RTSPStreamServer`; subprocess side effects of
`update_image` / `_restart_ffmpeg` are recorded as an action trace.
`waitTimesOut` injects `subprocess.TimeoutExpired` from
`self.process.wait(timeout=2)` inside `_restart_ffmpeg` (where it is caught
by the method's own `except`, skipping the respawn). -/

structure Bridge where
  host : String
  port : ℕ
  stream_name : String
  fps : ℚ
  running : Bool
  hasProcess : Bool
  frame_size : ℕ × ℕ
  last_frame : Option (ℕ × ℕ)
deriving DecidableEq

inductive RAct where
  | terminate
  | waitBounded (secs : ℕ)
  | kill
  | spawn (w h : ℕ)
  | storeFrame (w h : ℕ)
deriving DecidableEq

/-- `RTSPStreamServer._restart_ffmpeg`: terminate the current process, wait
with a 2-second bound, then (when the bridge was running) spawn a new
encoder with the current `frame_size`.  There is no kill step: a wait
timeout raises, is caught by the method's `except`, and the respawn is
skipped. -/
def restart_ffmpeg (waitTimesOut : Bool) (b : Bridge) : Bridge × List RAct :=
  if b.hasProcess then
    if waitTimesOut then (b, [RAct.terminate, RAct.waitBounded 2])
    else if b.running then
      ({ b with hasProcess := true },
        [RAct.terminate, RAct.waitBounded 2, RAct.spawn b.frame_size.1 b.frame_size.2])
    else (b, [RAct.terminate, RAct.waitBounded 2])
  else
    if b.running then
      ({ b with hasProcess := true }, [RAct.spawn b.frame_size.1 b.frame_size.2])
    else (b, [])

/-- `RTSPStreamServer.update_image`: immediate return when not running;
otherwise, when the incoming frame's size differs from `frame_size`, record
the new size and restart the encoder before the frame is stored for the
sender thread. -/
def update_image (waitTimesOut : Bool) (frame : ℕ × ℕ) (b : Bridge) : Bridge × List RAct :=
  if b.running = false then (b, [])
  else if frame ≠ b.frame_size then
    let b1 := { b with frame_size := frame }
    let out := restart_ffmpeg waitTimesOut b1
    ({ out.1 with last_frame := some frame }, out.2 ++ [RAct.storeFrame frame.1 frame.2])
  else
    ({ b with last_frame := some frame }, [RAct.storeFrame frame.1 frame.2])

def isSpawn : RAct → Bool
  | RAct.spawn _ _ => true
  | _ => false

/-- Number of encoder respawns recorded in a trace. -/
def restartCount (acts : List RAct) : ℕ := (acts.filter isSpawn).length

/-- `RTSPStreamServer.get_url`: the deterministic URL while running, absent
otherwise. -/
def get_url (b : Bridge) : Option String :=
  if b.running then
    some ("rtsp://" ++ b.host ++ ":" ++ toString b.port ++ "/" ++ b.stream_name)
  else none

inductive SendOutcome where
  | ok
  | brokenPipe
  | otherError
deriving DecidableEq

/-- `RTSPStreamServer._frame_sender_loop`, driven by the outcome of each
tick's write to the encoder's stdin.  A `BrokenPipeError` logs a diagnostic
and breaks out of the loop; any other error logs and continues; the loop
never mutates the bridge state.  Returns the bridge state when the thread
ends together with the log lines it emitted. -/
def frame_sender_loop (b : Bridge) : List SendOutcome → Bridge × List String
  | [] => (b, ["RTSP frame sender thread stopped"])
  | o :: rest =>
    if b.running && b.hasProcess then
      if b.last_frame.isSome then
        match o with
        | SendOutcome.ok => frame_sender_loop b rest
        | SendOutcome.brokenPipe =>
          (b, ["RTSP ffmpeg pipe broken", "RTSP frame sender thread stopped"])
        | SendOutcome.otherError =>
          let out := frame_sender_loop b rest
          (out.1, "Error sending frame to RTSP" :: out.2)
      else frame_sender_loop b rest
    else (b, ["RTSP frame sender thread stopped"])

/-! ## Concrete states used by witnesses and counterexamples -/

/-- A stopped bridge with some leftover state. -/
def c10Bridge : Bridge :=
  { host := "0.0.0.0", port := 8554, stream_name := "asiwatchdog", fps := 1
    running := false, hasProcess := false, frame_size := (1920, 1080)
    last_frame := some (1920, 1080) }

/-- A running bridge whose encoder was started at 1920x1080. -/
def c3Bridge : Bridge :=
  { host := "0.0.0.0", port := 8554, stream_name := "asiwatchdog", fps := 1
    running := true, hasProcess := true, frame_size := (1920, 1080)
    last_frame := some (1920, 1080) }

/-- A running bridge with a current frame, about to hit a broken pipe. -/
def c6Bridge : Bridge :=
  { host := "0.0.0.0", port := 8554, stream_name := "asiwatchdog", fps := 1
    running := true, hasProcess := true, frame_size := (640, 480)
    last_frame := some (640, 480) }

/-- An 8x8 grayscale buffer whose pixels all read 510, e.g. from a 16-bit
sensor scaled beyond the 8-bit range. -/
def buf510 : PixBuf := PixBuf.gray (List.replicate 8 (List.replicate 8 (510 : ℚ)))

/-- An 8x8 grayscale buffer of ordinary 8-bit pixel values. -/
def buf200 : PixBuf := PixBuf.gray (List.replicate 8 (List.replicate 8 (200 : ℚ)))

/-- An older session folder. -/
def sessOld : SessionFolder :=
  { path := "2025-01-01", mtime := 1
    files := [{ path := "2025-01-01/a.fit", mtime := 1, size := 6 }] }

/-- The most recently modified session folder. -/
def sessNew : SessionFolder :=
  { path := "2025-01-02", mtime := 2
    files := [{ path := "2025-01-02/b.fit", mtime := 2, size := 6 }] }

def dirTwoSessions : SessionDir := { rootFiles := [], folders := [sessOld, sessNew] }

def dirOneSession : SessionDir := { rootFiles := [], folders := [sessNew] }

/-- A watch directory with loose root files and no session folder at all. -/
def dirNoSessions : SessionDir :=
  { rootFiles := [{ path := "capture.fit", mtime := 1, size := 9 }], folders := [] }

/-- The ML service with no model artifacts loaded. -/
def svcNone : MLServiceState := { roofClassifier := none, skyClassifier := none }

/-- An ML service whose roof model predicts Open with full confidence and
whose sky model throws on every call. -/
def svcRoofOkSkyThrows : MLServiceState :=
  { roofClassifier := some fun _ _ => Except.ok { roof_open := true, confidence := 1 }
    skyClassifier := some fun _ _ => Except.error () }

/-- A trivial pixel buffer. -/
def imgEmpty : PixBuf := PixBuf.gray []

/-- A NINA-style safety file configuration with a 0.7 confidence threshold. -/
def cfgNina : SafetyConfig :=
  { file_path := "safety_monitor.txt", preamble := "Roof Status:"
    open_trigger := "OPEN", closed_trigger := "CLOSED"
    include_confidence := true, include_sky_condition := true
    min_confidence := 7/10 }

/-- A previously written safety file (with its trailing Updated line) and a
stale temp sibling. -/
def fsPrior : SafetyFS :=
  { target := some "Roof Status: CLOSED\nUpdated: 2024-12-31 23:59:59\n"
    temp := some "stale partial data" }

def wPrior : WriterState := { lastStatus := some "Roof Status: CLOSED" }

/-- An analysis result with the roof open and no confidence value. -/
def resOpenNoConf : MLResults := { mlResultsInit with roof_status := "Open" }

/-- The claim's scenario: roof Open at confidence 0.92. -/
def resOpen92 : MLResults :=
  { mlResultsInit with roof_status := "Open", roof_confidence := some (23/25) }

/-! ## Theorems -/

/-- `joinLines` of a list with at least two lines starts with the first line
followed by a newline. -/
theorem joinLines_cons_cons (l l2 : String) (ls : List String) :
    joinLines (l :: l2 :: ls) = l ++ "\n" ++ joinLines (l2 :: ls) := rfl

/-- `joinLines` of a nonempty-tailed list starts with the head line and a
newline. -/
theorem joinLines_cons_ne (x : String) (ls : List String) (h : ls ≠ []) :
    joinLines (x :: ls) = x ++ "\n" ++ joinLines ls := by
  cases ls with
  | nil => exact absurd rfl h
  | cons a as => rfl

/-- `joinLines` of a list ending in `z` ends with `z` followed by a newline. -/
theorem joinLines_trailing (z : String) :
    ∀ ls : List String, ∃ front, joinLines (ls ++ [z]) = front ++ (z ++ "\n")
  | [] => ⟨"", by simp [joinLines]⟩
  | [l] => ⟨l ++ "\n", by simp [joinLines]⟩
  | l :: l2 :: ls => by
    obtain ⟨front, hf⟩ := joinLines_trailing z (l2 :: ls)
    refine ⟨l ++ "\n" ++ front, ?_⟩
    have h1 : joinLines ((l :: l2 :: ls) ++ [z]) =
        l ++ "\n" ++ joinLines ((l2 :: ls) ++ [z]) := rfl
    rw [h1, hf]
    simp [String.append_assoc]

/-- A line list of the shape built by `write_status` — first line, middle
lines, trailing line — joins to a string that starts with the first line
plus newline and ends with the trailing line plus newline. -/
theorem joinLines_shape (x : String) (m1 m2 : List String) (z : String) :
    (∃ rest, joinLines ((([x] ++ m1) ++ m2) ++ [z]) = x ++ "\n" ++ rest) ∧
    (∃ front, joinLines ((([x] ++ m1) ++ m2) ++ [z]) = front ++ (z ++ "\n")) := by
  constructor
  · have hls : (([x] ++ m1) ++ m2) ++ [z] = x :: ((m1 ++ m2) ++ [z]) := by simp
    have hne : (m1 ++ m2) ++ [z] ≠ [] := by simp
    rw [hls, joinLines_cons_ne x _ hne]
    exact ⟨_, rfl⟩
  · exact joinLines_trailing z (([x] ++ m1) ++ m2)

/-- Claim C10: forwarding a frame to the RTSP bridge while it is not Running
is a complete no-op: `update_image` returns immediately, the whole bridge
state (stored last frame, recorded frame size, encoder process handle) is
unchanged, no action — in particular no restart — is performed, and no
error is raised (the transition is total). -/
theorem update_image_not_running_noop (wt : Bool) (frame : ℕ × ℕ) (b : Bridge)
    (h : b.running = false) :
    update_image wt frame b = (b, []) ∧
    (update_image wt frame b).1.last_frame = b.last_frame ∧
    (update_image wt frame b).1.frame_size = b.frame_size ∧
    (update_image wt frame b).1.hasProcess = b.hasProcess ∧
    restartCount (update_image wt frame b).2 = 0 := by
  have h0 : update_image wt frame b = (b, []) := by
    unfold update_image
    rw [h]
    simp
  refine ⟨h0, ?_, ?_, ?_, ?_⟩ <;> simp [h0, restartCount]

/-- Witness for C10 at a concrete stopped bridge. -/
theorem update_image_not_running_noop_witness :
    update_image false (640, 480) c10Bridge = (c10Bridge, []) ∧
    (update_image false (640, 480) c10Bridge).1.last_frame = c10Bridge.last_frame ∧
    (update_image false (640, 480) c10Bridge).1.frame_size = c10Bridge.frame_size ∧
    (update_image false (640, 480) c10Bridge).1.hasProcess = c10Bridge.hasProcess ∧
    restartCount (update_image false (640, 480) c10Bridge).2 = 0 :=
  update_image_not_running_noop false (640, 480) c10Bridge (by rfl)

/-- Claim C3, counterexample: forwarding a 1280x720 frame to a running bridge
started at 1920x1080 performs exactly one restart before the frame is
stored, but the restart trace is terminate, bounded wait, respawn — it
contains no force-kill action, contrary to the claim's description of the
restart as "graceful terminate with bounded wait, then force-kill, then
respawn". -/
theorem update_image_restart_no_force_kill :
    (update_image false (1280, 720) c3Bridge).2 =
      [RAct.terminate, RAct.waitBounded 2, RAct.spawn 1280 720, RAct.storeFrame 1280 720] ∧
    RAct.kill ∉ (update_image false (1280, 720) c3Bridge).2 ∧
    restartCount (update_image false (1280, 720) c3Bridge).2 = 1 := by
  refine ⟨by decide, by decide, by decide⟩

/-- Claim C3 (amended): for every frame forwarded while Running (with a live
encoder process whose graceful termination completes within the bounded
wait): if the frame's size differs from the resolution the encoder was
started with, exactly one restart — graceful terminate with bounded wait,
then respawn with the new dimensions, with no force-kill step — occurs
before that frame is stored for sending; a frame of the current resolution
causes zero restarts. -/
theorem update_image_resolution_change_restarts (b : Bridge) (frame : ℕ × ℕ)
    (hrun : b.running = true) (hproc : b.hasProcess = true) :
    (frame ≠ b.frame_size →
      (update_image false frame b).2 =
        [RAct.terminate, RAct.waitBounded 2, RAct.spawn frame.1 frame.2,
         RAct.storeFrame frame.1 frame.2] ∧
      restartCount (update_image false frame b).2 = 1 ∧
      (update_image false frame b).1.frame_size = frame ∧
      (update_image false frame b).1.last_frame = some frame) ∧
    (frame = b.frame_size →
      (update_image false frame b).2 = [RAct.storeFrame frame.1 frame.2] ∧
      restartCount (update_image false frame b).2 = 0) := by
  constructor
  · intro hne
    have h0 : update_image false frame b =
        ({ b with frame_size := frame, hasProcess := true, last_frame := some frame },
         [RAct.terminate, RAct.waitBounded 2, RAct.spawn frame.1 frame.2,
          RAct.storeFrame frame.1 frame.2]) := by
      unfold update_image restart_ffmpeg
      rw [hrun]
      simp [hne, hproc, hrun]
    rw [h0]
    simp [restartCount, isSpawn]
  · intro heq
    have h0 : update_image false frame b =
        ({ b with last_frame := some frame }, [RAct.storeFrame frame.1 frame.2]) := by
      unfold update_image
      rw [hrun]
      simp [heq]
    rw [h0]
    simp [restartCount, isSpawn]

/-- Witness for the amended C3 at a concrete running bridge: a
resolution-changing frame gives exactly one restart before the store, and a
same-size frame gives zero restarts. -/
theorem update_image_resolution_change_restarts_witness :
    ((update_image false (1280, 720) c3Bridge).2 =
       [RAct.terminate, RAct.waitBounded 2, RAct.spawn 1280 720,
        RAct.storeFrame 1280 720] ∧
     restartCount (update_image false (1280, 720) c3Bridge).2 = 1 ∧
     (update_image false (1280, 720) c3Bridge).1.frame_size = (1280, 720) ∧
     (update_image false (1280, 720) c3Bridge).1.last_frame = some (1280, 720)) ∧
    ((update_image false (1920, 1080) c3Bridge).2 = [RAct.storeFrame 1920 1080] ∧
     restartCount (update_image false (1920, 1080) c3Bridge).2 = 0) :=
  ⟨(update_image_resolution_change_restarts c3Bridge (1280, 720) (by rfl) (by rfl)).1
      (by decide),
   (update_image_resolution_change_restarts c3Bridge (1920, 1080) (by rfl) (by rfl)).2
      (by decide)⟩

/-- Claim C6, counterexample: a broken pipe while writing a frame makes the
pump stop and logs a diagnostic, but the bridge is left with
`running = true` and `get_url` still returns the stream URL — it does not
transition to Stopped and its URL does not become absent. -/
theorem frame_sender_broken_pipe_leaves_running :
    (frame_sender_loop c6Bridge [SendOutcome.brokenPipe]).1.running = true ∧
    get_url (frame_sender_loop c6Bridge [SendOutcome.brokenPipe]).1 =
      some "rtsp://0.0.0.0:8554/asiwatchdog" ∧
    "RTSP ffmpeg pipe broken" ∈ (frame_sender_loop c6Bridge [SendOutcome.brokenPipe]).2 := by
  refine ⟨by decide, by decide, by decide⟩

/-- Claim C6 (amended): whenever the frame-pump loop encounters a broken pipe
while writing a frame, the pump stops (no later tick is processed) with the
diagnostic "RTSP ffmpeg pipe broken" logged and no crash of the host process
(the transition is total and returns normally); however the bridge state is
left unchanged: it still reports Running and its URL remains present until
`stop()` is called. -/
theorem frame_sender_broken_pipe_stops_pump (b : Bridge) (rest : List SendOutcome)
    (hrun : b.running = true) (hproc : b.hasProcess = true)
    (hframe : b.last_frame.isSome = true) :
    frame_sender_loop b (SendOutcome.brokenPipe :: rest) =
      (b, ["RTSP ffmpeg pipe broken", "RTSP frame sender thread stopped"]) ∧
    (frame_sender_loop b (SendOutcome.brokenPipe :: rest)).1.running = b.running ∧
    get_url (frame_sender_loop b (SendOutcome.brokenPipe :: rest)).1 = get_url b := by
  have h0 : frame_sender_loop b (SendOutcome.brokenPipe :: rest) =
      (b, ["RTSP ffmpeg pipe broken", "RTSP frame sender thread stopped"]) := by
    unfold frame_sender_loop
    rw [hrun, hproc, hframe]
    rfl
  exact ⟨h0, by rw [h0], by rw [h0]⟩

/-- Witness for the amended C6 at a concrete running bridge; the tail of the
outcome script is nonempty to exhibit that it is not processed. -/
theorem frame_sender_broken_pipe_stops_pump_witness :
    frame_sender_loop c6Bridge [SendOutcome.brokenPipe, SendOutcome.ok] =
      (c6Bridge, ["RTSP ffmpeg pipe broken", "RTSP frame sender thread stopped"]) ∧
    (frame_sender_loop c6Bridge [SendOutcome.brokenPipe, SendOutcome.ok]).1.running =
      c6Bridge.running ∧
    get_url (frame_sender_loop c6Bridge [SendOutcome.brokenPipe, SendOutcome.ok]).1 =
      get_url c6Bridge :=
  frame_sender_broken_pipe_stops_pump c6Bridge [SendOutcome.ok] (by rfl) (by rfl) (by rfl)

/-- Claim C1: for every `ml_results` input (and any injected I/O behaviour),
`write_status` performs no write — the file system, target file content
included, is byte-identical afterward — and returns `False`, whenever the
roof status is Unknown (`'N/A'`) or the confidence is present and strictly
below `min_confidence`. -/
theorem write_status_skip_is_noop (cfg : SafetyConfig) (res : MLResults) (now : String)
    (fail : FailPoint) (fs : SafetyFS) (w : WriterState)
    (h : res.roof_status = "N/A" ∨
      ∃ c, res.roof_confidence = some c ∧ c < cfg.min_confidence) :
    write_status cfg res now fail fs w = (false, fs, w) := by
  unfold write_status
  by_cases hp : cfg.file_path = ""
  · simp [hp]
  · rcases h with h | ⟨c, hc, hlt⟩
    · simp [hp, h]
    · by_cases hna : res.roof_status = "N/A"
      · simp [hp, hna]
      · simp [hp, hna, hc, hlt]

/-- Witness for C1: an Unknown roof status leaves the previously written file
untouched and yields `False`. -/
theorem write_status_skip_is_noop_witness :
    write_status cfgNina mlResultsInit "2025-01-01 00:00:00" FailPoint.noFail fsPrior wPrior
      = (false, fsPrior, wPrior) :=
  write_status_skip_is_noop cfgNina mlResultsInit "2025-01-01 00:00:00"
    FailPoint.noFail fsPrior wPrior (Or.inl rfl)

/-- Claim C4: the safety-signal write is atomic.  For a non-skipped call: any
failure occurring before the rename (directory creation, temp-file write, or
the rename itself raising) leaves the target file's prior content unchanged,
removes the temp file when the failure raised past the temp write, and makes
`write_status` return `False` instead of raising (the model is total); when
nothing fails, the single mutation of the target is the rename installing
the full content, with the temp file gone. -/
theorem write_status_atomic_failure (cfg : SafetyConfig) (res : MLResults) (now : String)
    (fail : FailPoint) (fs : SafetyFS) (w : WriterState)
    (hpath : cfg.file_path ≠ "")
    (hstatus : res.roof_status ≠ "N/A")
    (hconf : ∀ c, res.roof_confidence = some c → cfg.min_confidence ≤ c) :
    (fail ≠ FailPoint.noFail →
      (write_status cfg res now fail fs w).1 = false ∧
      (write_status cfg res now fail fs w).2.1.target = fs.target ∧
      (write_status cfg res now fail fs w).2.2 = w) ∧
    ((fail = FailPoint.writeFail ∨ fail = FailPoint.renameFail) →
      (write_status cfg res now fail fs w).2.1.temp = none) ∧
    (fail = FailPoint.noFail →
      (write_status cfg res now fail fs w).1 = true ∧
      (write_status cfg res now fail fs w).2.1.target = some (safetyContent cfg res now) ∧
      (write_status cfg res now fail fs w).2.1.temp = none) := by
  have h3 : (match res.roof_confidence with
             | some c => decide (c < cfg.min_confidence)
             | none => false) = false := by
    cases hres : res.roof_confidence with
    | none => rfl
    | some c =>
      simp only [decide_eq_false_iff_not, not_lt]
      exact hconf c hres
  cases fail with
  | noFail =>
    have e : write_status cfg res now FailPoint.noFail fs w =
        (true, { target := some (safetyContent cfg res now), temp := none },
         { lastStatus := some (buildSafetyLines cfg res now).headI }) := by
      unfold write_status
      simp [hpath, hstatus, h3, atomic_write]
    refine ⟨fun hne => absurd rfl hne, fun hor => ?_, fun _ => ?_⟩
    · rcases hor with hh | hh <;> exact FailPoint.noConfusion hh
    · rw [e]
      exact ⟨rfl, rfl, rfl⟩
  | mkdirFail =>
    have e : write_status cfg res now FailPoint.mkdirFail fs w = (false, fs, w) := by
      unfold write_status
      simp [hpath, hstatus, h3, atomic_write]
    refine ⟨fun _ => ?_, fun hor => ?_, fun hh => FailPoint.noConfusion hh⟩
    · rw [e]
      exact ⟨rfl, rfl, rfl⟩
    · rcases hor with hh | hh <;> exact FailPoint.noConfusion hh
  | writeFail =>
    have e : write_status cfg res now FailPoint.writeFail fs w =
        (false, { fs with temp := none }, w) := by
      unfold write_status
      simp [hpath, hstatus, h3, atomic_write]
    refine ⟨fun _ => ?_, fun _ => ?_, fun hh => FailPoint.noConfusion hh⟩
    · rw [e]
      exact ⟨rfl, rfl, rfl⟩
    · rw [e]
  | renameFail =>
    have e : write_status cfg res now FailPoint.renameFail fs w =
        (false, { fs with temp := none }, w) := by
      unfold write_status
      simp [hpath, hstatus, h3, atomic_write]
    refine ⟨fun _ => ?_, fun _ => ?_, fun hh => FailPoint.noConfusion hh⟩
    · rw [e]
      exact ⟨rfl, rfl, rfl⟩
    · rw [e]

/-- Witness for C4: a rename failure on a non-skipped write leaves the prior
target content (trailing Updated line included) unchanged, returns `False`,
and clears the temp sibling. -/
theorem write_status_atomic_failure_witness :
    (write_status cfgNina resOpenNoConf "2025-01-01 00:00:00" FailPoint.renameFail fsPrior wPrior).1 = false ∧
    (write_status cfgNina resOpenNoConf "2025-01-01 00:00:00" FailPoint.renameFail fsPrior wPrior).2.1.target = fsPrior.target ∧
    (write_status cfgNina resOpenNoConf "2025-01-01 00:00:00" FailPoint.renameFail fsPrior wPrior).2.2 = wPrior ∧
    (write_status cfgNina resOpenNoConf "2025-01-01 00:00:00" FailPoint.renameFail fsPrior wPrior).2.1.temp = none :=
  have h := write_status_atomic_failure cfgNina resOpenNoConf "2025-01-01 00:00:00"
    FailPoint.renameFail fsPrior wPrior (by decide) (by decide)
    (fun c hc => nomatch hc)
  ⟨(h.1 (by decide)).1, (h.1 (by decide)).2.1, (h.1 (by decide)).2.2,
   h.2.1 (Or.inr rfl)⟩

/-- Claim C9: for every successful `write_status` call, the written file is
exactly the first line `"<preamble> <trigger>"` — with `open_trigger` when
the roof status is Open and `closed_trigger` when it is Closed — followed by
an optional `"Confidence: NN%"` line, an optional
`"Sky Condition: <label> (NN%)"` line (the percentage part present only when
a sky confidence exists), and a trailing `"Updated: <timestamp>"` line. -/
theorem write_status_written_content (cfg : SafetyConfig) (res : MLResults) (now : String)
    (fs : SafetyFS) (w : WriterState)
    (hpath : cfg.file_path ≠ "")
    (hstat : res.roof_status = "Open" ∨ res.roof_status = "Closed")
    (hconf : ∀ c, res.roof_confidence = some c → cfg.min_confidence ≤ c) :
    (write_status cfg res now FailPoint.noFail fs w).1 = true ∧
    (write_status cfg res now FailPoint.noFail fs w).2.1.target =
      some (joinLines
        ([cfg.preamble ++ " " ++
            (if res.roof_status = "Open" then cfg.open_trigger else cfg.closed_trigger)]
         ++ (if cfg.include_confidence then
               match res.roof_confidence with
               | some c => ["Confidence: " ++ formatPercent0 c]
               | none => []
             else [])
         ++ (if cfg.include_sky_condition ∧ res.sky_condition ≠ "N/A" then
               match res.sky_confidence with
               | some s => ["Sky Condition: " ++ res.sky_condition ++ " (" ++ formatPercent0 s ++ ")"]
               | none => ["Sky Condition: " ++ res.sky_condition]
             else [])
         ++ ["Updated: " ++ now])) ∧
    (∃ rest, (write_status cfg res now FailPoint.noFail fs w).2.1.target =
      some (cfg.preamble ++ " " ++
        (if res.roof_status = "Open" then cfg.open_trigger else cfg.closed_trigger)
        ++ "\n" ++ rest)) ∧
    (∃ front, (write_status cfg res now FailPoint.noFail fs w).2.1.target =
      some (front ++ ("Updated: " ++ now ++ "\n"))) := by
  have hstatus : res.roof_status ≠ "N/A" := by
    rcases hstat with h | h <;> rw [h] <;> decide
  have h3 : (match res.roof_confidence with
             | some c => decide (c < cfg.min_confidence)
             | none => false) = false := by
    cases hres : res.roof_confidence with
    | none => rfl
    | some c =>
      simp only [decide_eq_false_iff_not, not_lt]
      exact hconf c hres
  have e : write_status cfg res now FailPoint.noFail fs w =
      (true, { target := some (safetyContent cfg res now), temp := none },
       { lastStatus := some (buildSafetyLines cfg res now).headI }) := by
    unfold write_status
    simp [hpath, hstatus, h3, atomic_write]
  have hshape : buildSafetyLines cfg res now =
      [cfg.preamble ++ " " ++
        (if res.roof_status = "Open" then cfg.open_trigger else cfg.closed_trigger)]
      ++ (if cfg.include_confidence then
            match res.roof_confidence with
            | some c => ["Confidence: " ++ formatPercent0 c]
            | none => []
          else [])
      ++ (if cfg.include_sky_condition ∧ res.sky_condition ≠ "N/A" then
            match res.sky_confidence with
            | some s => ["Sky Condition: " ++ res.sky_condition ++ " (" ++ formatPercent0 s ++ ")"]
            | none => ["Sky Condition: " ++ res.sky_condition]
          else [])
      ++ ["Updated: " ++ now] := rfl
  refine ⟨by rw [e], by rw [e, safetyContent, hshape], ?_, ?_⟩
  · rw [e, safetyContent, hshape]
    obtain ⟨rest, hr⟩ := (joinLines_shape
      (cfg.preamble ++ " " ++
        (if res.roof_status = "Open" then cfg.open_trigger else cfg.closed_trigger))
      (if cfg.include_confidence then
         match res.roof_confidence with
         | some c => ["Confidence: " ++ formatPercent0 c]
         | none => []
       else [])
      (if cfg.include_sky_condition ∧ res.sky_condition ≠ "N/A" then
         match res.sky_confidence with
         | some s => ["Sky Condition: " ++ res.sky_condition ++ " (" ++ formatPercent0 s ++ ")"]
         | none => ["Sky Condition: " ++ res.sky_condition]
       else [])
      ("Updated: " ++ now)).1
    rw [hr]
    exact ⟨rest, rfl⟩
  · rw [e, safetyContent, hshape]
    obtain ⟨front, hf⟩ := (joinLines_shape
      (cfg.preamble ++ " " ++
        (if res.roof_status = "Open" then cfg.open_trigger else cfg.closed_trigger))
      (if cfg.include_confidence then
         match res.roof_confidence with
         | some c => ["Confidence: " ++ formatPercent0 c]
         | none => []
       else [])
      (if cfg.include_sky_condition ∧ res.sky_condition ≠ "N/A" then
         match res.sky_confidence with
         | some s => ["Sky Condition: " ++ res.sky_condition ++ " (" ++ formatPercent0 s ++ ")"]
         | none => ["Sky Condition: " ++ res.sky_condition]
       else [])
      ("Updated: " ++ now)).2
    rw [hf]
    exact ⟨front, rfl⟩

/-- Witness for C9, the claim's scenario: `roof_confidence = 0.92`,
`threshold = 0.7`, roof Open — the write succeeds and the file's first line
is `"<preamble> <open_trigger>"`. -/
theorem write_status_written_content_witness :
    (write_status cfgNina resOpen92 "2025-01-01 21:30:00" FailPoint.noFail fsPrior wPrior).1 = true ∧
    (write_status cfgNina resOpen92 "2025-01-01 21:30:00" FailPoint.noFail fsPrior wPrior).2.1.target =
      some (joinLines (["Roof Status:" ++ " " ++ "OPEN"]
        ++ ["Confidence: " ++ formatPercent0 (23/25)] ++ []
        ++ ["Updated: " ++ "2025-01-01 21:30:00"])) ∧
    (∃ rest, (write_status cfgNina resOpen92 "2025-01-01 21:30:00" FailPoint.noFail fsPrior wPrior).2.1.target =
      some ("Roof Status:" ++ " " ++ "OPEN" ++ "\n" ++ rest)) ∧
    (∃ front, (write_status cfgNina resOpen92 "2025-01-01 21:30:00" FailPoint.noFail fsPrior wPrior).2.1.target =
      some (front ++ ("Updated: " ++ "2025-01-01 21:30:00" ++ "\n"))) :=
  write_status_written_content cfgNina resOpen92 "2025-01-01 21:30:00" fsPrior wPrior
    (by decide) (Or.inl rfl)
    (fun c hc => by
      have hcc : (23 : ℚ)/25 = c := by
        have hcv : resOpen92.roof_confidence = some ((23 : ℚ)/25) := rfl
        rw [hcv] at hc
        injection hc
      rw [← hcc]
      norm_num [cfgNina])

/-- Claim C5: `analyze_image` is total (never raises) and always returns the
fully-shaped seven-field result.  With no roof model loaded the result is
the all-unavailable one: `roof_status = "N/A"`, `roof_confidence = none`; a
roof prediction that throws leaves the whole result at its unavailable
defaults; a sky prediction that throws degrades only the sky fields,
keeping the roof fields from the successful roof prediction. -/
theorem analyze_image_degrades_gracefully (svc : MLServiceState)
    (roofEnabled skyEnabled : Bool) (img : PixBuf) (hour : ℕ) :
    (svc.roofClassifier = none →
      analyze_image svc roofEnabled skyEnabled img hour = mlResultsInit) ∧
    (∀ p, svc.roofClassifier = some p →
      p img (roofMetaOf (compute_corner_analysis img) (compute_time_context hour)) =
        Except.error () →
      analyze_image svc roofEnabled skyEnabled img hour = mlResultsInit) ∧
    (∀ p q r, svc.roofClassifier = some p →
      p img (roofMetaOf (compute_corner_analysis img) (compute_time_context hour)) =
        Except.ok r →
      r.roof_open = true →
      svc.skyClassifier = some q →
      q img (skyMetaOf (compute_corner_analysis img) (compute_time_context hour)) =
        Except.error () →
      roofEnabled = true →
      analyze_image svc roofEnabled skyEnabled img hour =
        { mlResultsInit with
            roof_status := "Open"
            roof_confidence := some (round3 r.confidence) }) := by
  refine ⟨?_, ?_, ?_⟩
  · intro h
    cases roofEnabled <;> cases skyEnabled <;> cases hs : svc.skyClassifier <;>
      simp [analyze_image, h, hs, mlResultsInit]
  · intro p hp herr
    cases roofEnabled <;> cases skyEnabled <;> cases hs : svc.skyClassifier <;>
      simp [analyze_image, hp, hs, herr, mlResultsInit]
  · intro p q r hp hok hopen hq herr hre
    subst hre
    cases skyEnabled <;>
      simp [analyze_image, hp, hok, hopen, hq, herr, mlResultsInit]

/-- Witness for C5: with no artifacts the result is all-unavailable, and a
throwing sky model on an Open roof keeps the roof fields while the sky
fields stay unavailable. -/
theorem analyze_image_degrades_gracefully_witness :
    analyze_image svcNone true true imgEmpty 0 = mlResultsInit ∧
    analyze_image svcRoofOkSkyThrows true true imgEmpty 0 =
      { mlResultsInit with
          roof_status := "Open"
          roof_confidence := some (round3 1) } :=
  ⟨(analyze_image_degrades_gracefully svcNone true true imgEmpty 0).1 rfl,
   (analyze_image_degrades_gracefully svcRoofOkSkyThrows true true imgEmpty 0).2.2
     _ _ _ rfl rfl rfl rfl rfl rfl⟩

/-- The eviction loop only partitions its input: deleted plus surviving files
re-assemble to the (sorted) input list. -/
theorem evictLoop_append (cap : ℕ) : ∀ (cur : ℕ) (l : List FileEntry),
    (evictLoop cap cur l).1 ++ (evictLoop cap cur l).2 = l
  | _, [] => rfl
  | cur, f :: rest => by
    unfold evictLoop
    by_cases h : cur ≤ cap
    · simp [h]
    · simp [h, evictLoop_append cap (cur - f.size) rest]

/-- Started with the exact total size of its input, the eviction loop stops
under the cap or exhausts all files. -/
theorem evictLoop_total (cap : ℕ) : ∀ (l : List FileEntry),
    totalSize (evictLoop cap (totalSize l) l).2 ≤ cap ∨
      (evictLoop cap (totalSize l) l).2 = []
  | [] => Or.inr rfl
  | f :: rest => by
    unfold evictLoop
    by_cases h : totalSize (f :: rest) ≤ cap
    · left
      simp [h]
    · have hsub : totalSize (f :: rest) - f.size = totalSize rest := by
        simp [totalSize]
      rcases evictLoop_total cap rest with h2 | h2
      · left
        simpa [h, hsub] using h2
      · right
        simpa [h, hsub] using h2

/-- Claim C2: after `delete_oldest_files(D, C)` the directory's total size is
at most the cap, or every file was deleted; the files deleted form an
ascending-mtime sequence all no newer than any surviving file (they are
deleted one at a time from the sorted list, a running total decremented by
each deleted size); deleted and surviving files partition the original
files, and no directory is ever removed. -/
theorem delete_oldest_files_spec (d : WatchDir) (cap : ℕ) :
    (totalSize (delete_oldest_files d cap).1.files ≤ cap ∨
      (delete_oldest_files d cap).1.files = []) ∧
    ((delete_oldest_files d cap).2 ++ (delete_oldest_files d cap).1.files).Perm d.files ∧
    List.Sorted (fun a b => a.mtime ≤ b.mtime) (delete_oldest_files d cap).2 ∧
    (∀ f ∈ (delete_oldest_files d cap).2, ∀ g ∈ (delete_oldest_files d cap).1.files,
      f.mtime ≤ g.mtime) ∧
    (delete_oldest_files d cap).1.dirs = d.dirs := by
  have hperm : (sortFilesByMtime d.files).Perm d.files := by
    simp only [sortFilesByMtime]
    exact List.perm_insertionSort _ d.files
  have hsorted : List.Sorted (fun a b => a.mtime ≤ b.mtime) (sortFilesByMtime d.files) := by
    simp only [sortFilesByMtime]
    exact List.sorted_insertionSort _ d.files
  by_cases h : totalSize d.files ≤ cap
  · have e : delete_oldest_files d cap = (d, []) := by
      simp [delete_oldest_files, h]
    rw [e]
    exact ⟨Or.inl h, List.Perm.refl _, List.sorted_nil, by simp, rfl⟩
  · have hts : totalSize (sortFilesByMtime d.files) = totalSize d.files :=
      (hperm.map FileEntry.size).sum_eq
    have e : delete_oldest_files d cap =
        ({ files := (evictLoop cap (totalSize d.files) (sortFilesByMtime d.files)).2
           dirs := d.dirs },
         (evictLoop cap (totalSize d.files) (sortFilesByMtime d.files)).1) := by
      simp [delete_oldest_files, h]
    have happ := evictLoop_append cap (totalSize d.files) (sortFilesByMtime d.files)
    have htotal := evictLoop_total cap (sortFilesByMtime d.files)
    rw [hts] at htotal
    have hpair : List.Pairwise (fun a b => a.mtime ≤ b.mtime)
        ((evictLoop cap (totalSize d.files) (sortFilesByMtime d.files)).1 ++
         (evictLoop cap (totalSize d.files) (sortFilesByMtime d.files)).2) := by
      rw [happ]
      exact hsorted
    rw [List.pairwise_append] at hpair
    rw [e]
    refine ⟨htotal, ?_, hpair.1, hpair.2.2, rfl⟩
    rw [happ]
    exact hperm

/-- The session eviction loop only ever reports paths of folders from its
input list. -/
theorem sessionsLoop_paths (cap : ℕ) : ∀ (cur : ℕ) (l : List SessionFolder),
    ∀ p ∈ sessionsLoop cap cur l, p.1 ∈ l.map SessionFolder.path
  | _, [] => by
    intro p hp
    simp [sessionsLoop] at hp
  | cur, fo :: rest => by
    intro p hp
    unfold sessionsLoop at hp
    by_cases h : cur ≤ cap
    · simp [h] at hp
    · simp only [h, if_false] at hp
      rcases List.mem_cons.mp hp with hp1 | hp1
      · simp [hp1]
      · have := sessionsLoop_paths cap (deleteFilesLoop cap cur fo.files).1 rest p hp1
        simp only [List.map_cons, List.mem_cons]
        exact Or.inr this

/-- Claim C7: for every directory and cap, when the directory contains one
child folder or none, `delete_oldest_sessions` deletes nothing at all; and
it never deletes a file inside the immediate child folder with the
(strictly) maximum mtime.  Folder paths are assumed distinct for the
preservation part, as they are on a file system. -/
theorem delete_oldest_sessions_preserves_latest (d : SessionDir) (cap : ℕ) :
    (d.folders.length ≤ 1 → delete_oldest_sessions d cap = []) ∧
    ∀ fo ∈ d.folders,
      (∀ fo2 ∈ d.folders, fo2 ≠ fo → fo2.mtime < fo.mtime) →
      (d.folders.map SessionFolder.path).Nodup →
      ∀ p ∈ delete_oldest_sessions d cap, p.1 ≠ fo.path := by
  have hperm : (sortFoldersByMtime d.folders).Perm d.folders := by
    simp only [sortFoldersByMtime]
    exact List.perm_insertionSort _ d.folders
  have hsorted : List.Sorted (fun a b => a.mtime ≤ b.mtime) (sortFoldersByMtime d.folders) := by
    simp only [sortFoldersByMtime]
    exact List.sorted_insertionSort _ d.folders
  have hlen : (sortFoldersByMtime d.folders).length = d.folders.length := hperm.length_eq
  have e : delete_oldest_sessions d cap =
      (if (sortFoldersByMtime d.folders).length = 0 then []
       else if (sortFoldersByMtime d.folders).length = 1 then []
       else sessionsLoop cap (sessionDirSize d) (sortFoldersByMtime d.folders).dropLast) := rfl
  constructor
  · intro hle
    rw [e]
    rw [hlen] at *
    rcases Nat.le_one_iff_eq_zero_or_eq_one.mp hle with h1 | h1
    · rw [hlen, h1]
      simp
    · rw [hlen, h1]
      simp
  · intro fo hmem hmax hnodup p hp
    rw [e] at hp
    by_cases h0 : (sortFoldersByMtime d.folders).length = 0
    · rw [if_pos h0] at hp
      exact absurd hp (List.not_mem_nil p)
    · rw [if_neg h0] at hp
      by_cases h1 : (sortFoldersByMtime d.folders).length = 1
      · rw [if_pos h1] at hp
        exact absurd hp (List.not_mem_nil p)
      · rw [if_neg h1] at hp
        have hpath := sessionsLoop_paths cap (sessionDirSize d)
          (sortFoldersByMtime d.folders).dropLast p hp
        rcases (sortFoldersByMtime d.folders).eq_nil_or_concat with hnil | ⟨l2, z, hsz0⟩
        · rw [hnil] at h0
          exact absurd rfl h0
        · have hsz : sortFoldersByMtime d.folders = l2 ++ [z] := by
            rw [hsz0, List.concat_eq_append]
          have hdrop : (sortFoldersByMtime d.folders).dropLast = l2 := by
            rw [hsz]
            simp
          have hfos : fo ∈ sortFoldersByMtime d.folders := hperm.mem_iff.mpr hmem
          have hcross : ∀ a ∈ l2, a.mtime ≤ z.mtime := by
            have hs := hsorted
            rw [hsz, List.Sorted, List.pairwise_append] at hs
            intro a ha
            exact hs.2.2 a ha z (List.mem_singleton_self z)
          have hzfo : z = fo := by
            by_contra hzf
            have hzmem : z ∈ d.folders := by
              refine hperm.subset ?_
              rw [hsz]
              exact List.mem_append_right l2 (List.mem_singleton_self z)
            have hlt : z.mtime < fo.mtime := hmax z hzmem hzf
            rcases List.mem_append.mp (hsz ▸ hfos) with hfol | hfoz
            · exact absurd (lt_of_le_of_lt (hcross fo hfol) hlt) (lt_irrefl _)
            · exact hzf (List.mem_singleton.mp hfoz).symm
          have hnods : ((sortFoldersByMtime d.folders).map SessionFolder.path).Nodup :=
            ((hperm.map SessionFolder.path).nodup_iff).mpr hnodup
          have hnotin : fo.path ∉ l2.map SessionFolder.path := by
            rw [hsz, hzfo, List.map_append] at hnods
            have hdisj := (List.nodup_append.mp hnods).2.2
            intro hin
            exact hdisj hin (by simp)
          rw [hdrop] at hpath
          intro hpf
          rw [hpf] at hpath
          exact hnotin hpath

/-- Witness for C7: a directory without session folders and a single-folder
directory are both no-ops, and with two folders nothing deleted carries the
newest folder's path. -/
theorem delete_oldest_sessions_preserves_latest_witness :
    delete_oldest_sessions dirNoSessions 0 = [] ∧
    delete_oldest_sessions dirOneSession 0 = [] ∧
    ∀ p ∈ delete_oldest_sessions dirTwoSessions 0, p.1 ≠ sessNew.path :=
  ⟨(delete_oldest_sessions_preserves_latest dirNoSessions 0).1 (by decide),
   (delete_oldest_sessions_preserves_latest dirOneSession 0).1 (by decide),
   (delete_oldest_sessions_preserves_latest dirTwoSessions 0).2 sessNew (by decide)
     (by decide) (by decide)⟩

/-- Every entry of a matrix is bounded by `matMax` (entries are nonnegative
in pixel data, and the fold starts at 0). -/
theorem le_foldr_max : ∀ (l : List ℚ), ∀ v ∈ l, v ≤ l.foldr max 0
  | [], v, hv => absurd hv (List.not_mem_nil v)
  | a :: l, v, hv => by
    rcases List.mem_cons.mp hv with h | h
    · rw [h]
      exact le_max_left _ _
    · exact le_trans (le_foldr_max l v h) (le_max_right _ _)

theorem le_matMax (g : List (List ℚ)) : ∀ v ∈ matEntries g, v ≤ matMax g :=
  fun v hv => le_foldr_max (matEntries g) v hv

/-- Mapping a function over every row commutes with flattening. -/
theorem matEntries_map (f : ℚ → ℚ) :
    ∀ g : List (List ℚ),
      matEntries (g.map (fun row => row.map f)) = (matEntries g).map f
  | [] => rfl
  | row :: g => by
    have ih := matEntries_map f g
    simp only [matEntries] at ih ⊢
    simp only [List.map_cons, List.flatten_cons, List.map_append, ih]

/-- Claim C8, counterexample: on a buffer whose source range exceeds 1 but
whose values exceed 255 (here uniformly 510), the "normalization" divides by
255 and produces the value 2 everywhere, which lies outside [0,1] — the
claim that values are normalized into [0,1] whenever the source range
exceeds 1 fails. -/
theorem corner_analysis_normalization_exceeds_unit :
    1 < matMax (toGray buf510) ∧
    normalizeGray (toGray buf510) = List.replicate 8 (List.replicate 8 (2 : ℚ)) ∧
    ¬ ((2 : ℚ) ≤ 1) := by
  have h1 : 1 < matMax (toGray buf510) := by decide
  refine ⟨h1, ?_, by decide⟩
  unfold normalizeGray
  rw [if_pos h1]
  have h2 : (510 : ℚ) / 255 = 2 := by norm_num
  simp [buf510, toGray, List.map_replicate, h2]

/-- Claim C8 (amended): the model-free feature extraction computes grayscale
by channel mean when multi-channel, divides every value by 255 whenever the
source range exceeds 1 (which lands in [0,1] exactly when the source values
lie within [0,255]), and takes four corner regions of side `min(h,w)/8`, a
center region with quarter-size margins on each axis, `corner_med` the
median of the four corner medians, `center_med` the median of the center
region, and `corner_to_center_ratio = corner_med / max(center_med, 1e-3)`. -/
theorem corner_analysis_matches_spec (buf : PixBuf)
    (hrange : ∀ v ∈ matEntries (toGray buf), 0 ≤ v ∧ v ≤ 255) :
    compute_corner_analysis buf = cornerAnalysisSpec buf ∧
    ∀ v ∈ matEntries (normalizeGray (toGray buf)), 0 ≤ v ∧ v ≤ 1 := by
  constructor
  · rfl
  · intro v hv
    unfold normalizeGray at hv
    by_cases hm : 1 < matMax (toGray buf)
    · rw [if_pos hm] at hv
      rw [matEntries_map] at hv
      obtain ⟨u, hu, huv⟩ := List.mem_map.mp hv
      obtain ⟨hu0, hu255⟩ := hrange u hu
      constructor
      · rw [← huv]
        positivity
      · rw [← huv]
        rw [div_le_one (by norm_num)]
        exact hu255
    · rw [if_neg hm] at hv
      exact ⟨(hrange v hv).1, le_trans (le_matMax _ v hv) (not_lt.mp hm)⟩

/-- Witness for the amended C8 at a concrete 8x8 8-bit buffer. -/
theorem corner_analysis_matches_spec_witness :
    compute_corner_analysis buf200 = cornerAnalysisSpec buf200 ∧
    ∀ v ∈ matEntries (normalizeGray (toGray buf200)), 0 ≤ v ∧ v ≤ 1 :=
  corner_analysis_matches_spec buf200 (by decide)

end ASIOverlay
